import Mathlib

/-!
Shallow embedding of the aggregation, normalization, grading and prediction
core of the student-performance dashboard (app.py and main.py), together
with theorems settling the specification claims about that core.

Tables are modelled as a list of column labels plus rows of cells, the i-th
cell of a row belonging to the i-th column, which is how pandas lays out the
frames produced by read_excel and concat.  A missing value (NaN) is the cell
constructor `na`; numeric marks are rationals; text cells (class labels,
names, registration ids) are strings.
-/

namespace Dashboard

/-- A spreadsheet cell: `na` models a missing value (NaN after read_excel
and concat), `num` a numeric mark, `str` a text value such as a class label
or a name. -/
inductive Cell where
  | na : Cell
  | num : ℚ → Cell
  | str : String → Cell
deriving DecidableEq

/-- A pandas DataFrame: column labels plus rows of cells, positionally
aligned (cell i of a row belongs to column i). -/
structure DataFrame where
  cols : List String
  rows : List (List Cell)
deriving DecidableEq

/-- The fixed six canonical subjects (SUBJECTS in app.py). -/
def SUBJECTS : List String :=
  ["OOPs C++", "DSA C++", "Mathematics", "Applied Data Science",
   "Embedded Systems", "Cloud Management"]

/-- Alias table for subject column names (RENAME_MAP in app.py). -/
def RENAME_MAP : List (String × String) :=
  [("OOPS C++", "OOPs C++"),
   ("OOP C++", "OOPs C++"),
   ("Object Oriented Programming C++", "OOPs C++"),
   ("DSA CPP", "DSA C++"),
   ("DSA in C++", "DSA C++"),
   ("Applied data science", "Applied Data Science"),
   ("Applied DataScience", "Applied Data Science"),
   ("Embedded System", "Embedded Systems"),
   ("Embeded system", "Embedded Systems"),
   ("Cloud Mgmt", "Cloud Management"),
   ("CloudMgmt", "Cloud Management")]

/-- Action of the rename on a single column label: a known alias becomes its
canonical form, any other label is unchanged (case-sensitive exact match,
as in pandas rename with a dict). -/
def applyRename (c : String) : String :=
  match RENAME_MAP.find? (fun p => p.1 == c) with
  | some p => p.2
  | none => c

/-- Step (a) of normalization, the rename call on the combined table: only
the column labels change. -/
def renameCols (df : DataFrame) : DataFrame :=
  ⟨df.cols.map applyRename, df.rows⟩

/-- One iteration of the backfill loop: when the subject column is absent it
is appended on the right holding the numeric constant 0 in every row. -/
def addCol (d : DataFrame) (sub : String) : DataFrame :=
  if sub ∈ d.cols then d
  else ⟨d.cols ++ [sub], d.rows.map (fun r => r ++ [Cell.num 0])⟩

/-- Step (b) of normalization, the backfill loop over the six subjects. -/
def addMissing (df : DataFrame) : DataFrame :=
  SUBJECTS.foldl addCol df

/-- Action of the zero-fill on one cell of a given column: a missing cell of
a subject column becomes the numeric 0, every other cell is untouched. -/
def fillCell (c : String) (x : Cell) : Cell :=
  if c ∈ SUBJECTS ∧ x = Cell.na then Cell.num 0 else x

/-- Zero-fill applied along a row, position by position. -/
def fillRow (cols : List String) (r : List Cell) : List Cell :=
  List.zipWith fillCell cols r

/-- Step (c) of normalization, the fillna call restricted to the subject
columns. -/
def fillnaSubjects (df : DataFrame) : DataFrame :=
  ⟨df.cols, df.rows.map (fillRow df.cols)⟩

/-- The whole normalization block of page_home: alias rename, then subject
backfill, then zero-fill of missing subject cells. -/
def normalize (df : DataFrame) : DataFrame :=
  fillnaSubjects (addMissing (renameCols df))

/-- Subjects absent from a list of column labels, in subject order: these
are the columns the backfill loop appends. -/
def missingSubs (cols : List String) : List String :=
  SUBJECTS.filter (fun s => !(cols.contains s))

/-- Closed form of the column labels after normalization. -/
def normCols (cols : List String) : List String :=
  cols.map applyRename ++ missingSubs (cols.map applyRename)

/-- Closed form of the transformation normalization applies to one row of a
table with the given original column labels. -/
def normRow (cols : List String) (r : List Cell) : List Cell :=
  fillRow (normCols cols)
    (r ++ List.replicate (missingSubs (cols.map applyRename)).length (Cell.num 0))

/-- Column access on one row: the cell under the first column carrying the
requested label, `na` when the column is absent or the row is too short. -/
def lookup : List String → List Cell → String → Cell
  | [], _, _ => Cell.na
  | _ :: _, [], _ => Cell.na
  | c₀ :: cs, x :: xs, c => if c₀ = c then x else lookup cs xs c

/-- Whether a cell is a numeric mark. -/
def isNum : Cell → Bool
  | Cell.num _ => true
  | _ => false

/-- Numeric reading of a cell as used by the row-wise sum: a numeric cell
contributes its value, a missing cell is skipped (contributes 0). -/
def cellNum : Cell → ℚ
  | Cell.num q => q
  | _ => 0

/-- Row total: the six subject cells selected by name and summed, which is
the row-wise sum over the subject columns. -/
def totalMarks (cols : List String) (r : List Cell) : ℚ :=
  (SUBJECTS.map (fun s => cellNum (lookup cols r s))).sum

/-- Round a rational to the nearest integer, halves to the even neighbour
(the numpy rounding behind the round method of a pandas Series). -/
def roundHalfEven (x : ℚ) : ℤ :=
  if x - ⌊x⌋ < 1/2 then ⌊x⌋
  else if 1/2 < x - ⌊x⌋ then ⌊x⌋ + 1
  else if ⌊x⌋ % 2 = 0 then ⌊x⌋ else ⌊x⌋ + 1

/-- Rounding to two decimal places, as in round applied with argument 2. -/
def round2 (x : ℚ) : ℚ :=
  (roundHalfEven (x * 100) : ℚ) / 100

/-- Row percentage: total divided by the number of subjects times 100, times
100, rounded to two decimals. -/
def percentage (cols : List String) (r : List Cell) : ℚ :=
  round2 (totalMarks cols r / (SUBJECTS.length * 100) * 100)

/-- The pass-all test on one row: every subject cell is a numeric mark of at
least 40; a missing or non-numeric cell compares as not passing. -/
def passAll (cols : List String) (r : List Cell) : Bool :=
  SUBJECTS.all (fun s =>
    match lookup cols r s with
    | Cell.num q => decide (40 ≤ q)
    | _ => false)

/-- The pass-rate KPI of page_home: 0.0 for an empty table, otherwise 100
times the number of pass-all rows over the row count. -/
def passRate (df : DataFrame) : ℚ :=
  if df.rows.length = 0 then 0
  else 100 * (df.rows.countP (fun r => passAll df.cols r)) / df.rows.length

/-- GRADE_BOUNDS from app.py. -/
def GRADE_BOUNDS : List (ℚ × String) :=
  [(90, "A+"), (80, "A"), (70, "B"), (60, "C"), (50, "D"), (0, "E")]

/-- Letter grade of a score: the letter of the first bound the score
reaches, with the fallback letter E. -/
def to_grade (score : ℚ) : String :=
  match GRADE_BOUNDS.find? (fun p => decide (p.1 ≤ score)) with
  | some p => p.2
  | none => "E"

/-- Clamp a score into the interval from 0 to 100. -/
def clamp (x : ℚ) : ℚ := max 0 (min 100 x)

/-- Gender options of the predictor form. -/
inductive Gender where
  | female | male | other
deriving DecidableEq

/-- Parental-support options of the app.py predictor form. -/
inductive ParentalSupport where
  | low | moderate | high
deriving DecidableEq

/-- Parental-education options of the app.py predictor form. -/
inductive ParentalEd where
  | primary | middleSchool | highSchool | bachelor | masterPlus
deriving DecidableEq

/-- Ethnicity options of the predictor form. -/
inductive Ethnicity where
  | groupA | groupB | groupC | groupD | groupE
deriving DecidableEq

/-- The eight predictor inputs collected by the dialog. -/
structure PredictorInput where
  age : ℚ
  gender : Gender
  absences : ℚ
  study_time : ℚ
  parental_ed : ParentalEd
  parental_support : ParentalSupport
  ethnicity : Ethnicity
  sports : Bool

/-- Parental-support bonus dictionary of the app.py predictor. -/
def supportBonus : ParentalSupport → ℚ
  | ParentalSupport.low => -6
  | ParentalSupport.moderate => 0
  | ParentalSupport.high => 6

/-- Parental-education bonus dictionary of the app.py predictor. -/
def eduBonus : ParentalEd → ℚ
  | ParentalEd.primary => -4
  | ParentalEd.middleSchool => -2
  | ParentalEd.highSchool => 0
  | ParentalEd.bachelor => 3
  | ParentalEd.masterPlus => 5

/-- The app.py predictor formula: base 50, study and absence terms, support
and education bonuses, sports bonus, age regularization, then clamp. -/
def predictor_score (i : PredictorInput) : ℚ :=
  clamp (50 + i.study_time * (22/10) - i.absences * (15/10)
    + supportBonus i.parental_support + eduBonus i.parental_ed
    + (if i.sports then 5/2 else 0)
    + (-(15/100) * (i.age - 17) ^ 2 + 1/2))

/-- The apostrophe character, written by code point so string literals stay
plain. -/
def apos : Char := Char.ofNat 39

/-- The main.py predictor heuristic, on the raw option strings of its form;
the two dictionary lookups fall back to defaults 3 and 2 on unknown keys. -/
def predict_percentage (age : ℚ) (gender : String) (absences : ℚ)
    (study_time : ℚ) (parental_edu : String) (parental_support : String)
    (ethnicity : String) (sports : Bool) : ℚ :=
  let edu_boost : ℚ :=
    if parental_edu = "Middle School" then 0
    else if parental_edu = "High School" then 3
    else if parental_edu = "Diploma" then 5
    else if parental_edu = "Bachelor" ++ String.singleton apos ++ "s" then 7
    else if parental_edu = "Master" ++ String.singleton apos ++ "s" then 8
    else if parental_edu = "PhD" then 9
    else 3
  let support_boost : ℚ :=
    if parental_support = "Low" then -4
    else if parental_support = "Moderate" then 2
    else if parental_support = "High" then 5
    else if parental_support = "Very High" then 7
    else 2
  let score : ℚ := 45 + (min study_time 25) * (18/10) - (min absences 30) * (14/10)
    + edu_boost + support_boost + (if sports then 3 else 0)
    - |age - 33/2| * (8/10)
  max 0 (min 100 score)

/-- Key order of a stable ascending argsort of the totals column: by total,
ties by original row position. -/
def ascKey (xs : List ℚ) (i j : Nat) : Prop :=
  xs.getD i 0 < xs.getD j 0 ∨ (xs.getD i 0 = xs.getD j 0 ∧ i ≤ j)

instance (xs : List ℚ) : DecidableRel (ascKey xs) := fun i j =>
  inferInstanceAs
    (Decidable (xs.getD i 0 < xs.getD j 0 ∨ (xs.getD i 0 = xs.getD j 0 ∧ i ≤ j)))

/-- Stable ascending argsort of the totals column, as row positions. -/
def argsortAsc (xs : List ℚ) : List Nat :=
  List.insertionSort (ascKey xs) (List.range xs.length)

/-- Row positions of the descending sort on the totals column: pandas
nargsort computes the ascending argsort and reverses it when descending. -/
def sortDescIdx (xs : List ℚ) : List Nat :=
  (argsortAsc xs).reverse

/-- Positions of the first three rows of the descending sort (head 3). -/
def top3Idx (xs : List ℚ) : List Nat :=
  (sortDescIdx xs).take 3

/-- The rank labels paired positionally with the top-3 row positions, as in
the assignment of the sliced label list to the Rank column. -/
def top3Ranked (xs : List ℚ) : List (String × Nat) :=
  (["1st", "2nd", "3rd"]).zip (top3Idx xs)

/-- The required identity columns checked by both entry points. -/
def CORE_COLS : List String := ["Class", "Reg.no", "Name"]

/-- The list-comprehension check for absent identity columns. -/
def missingCore (df : DataFrame) : List String :=
  CORE_COLS.filter (fun c => !(df.cols.contains c))

/-- The error text reported for absent identity columns: the fixed prefix
followed by the missing labels joined by a comma. -/
def missingMsg (missing : List String) : String :=
  "Missing required columns: " ++ String.intercalate ", " missing

/-- Rows of the selected class (the class filter applied to the table). -/
def filterClass (df : DataFrame) (cl : Cell) : DataFrame :=
  ⟨df.cols, df.rows.filter (fun r => decide (lookup df.cols r "Class" = cl))⟩

/-- The aggregation results page_home computes once the column check has
passed: per-row totals and percentages, the pass rate and the ranked top 3
of the selected class. -/
structure Analysis where
  totals : List ℚ
  percentages : List ℚ
  rate : ℚ
  top3 : List (String × Nat)
deriving DecidableEq

/-- The upload-and-analyze pipeline of page_home: normalize the combined
table, stop with the error message when a required identity column is
missing, otherwise filter the selected class and aggregate. -/
def analyze (df : DataFrame) (selectedClass : Cell) : Except String Analysis :=
  let ndf := normalize df
  let missing := missingCore ndf
  if missing = [] then
    let cls := filterClass ndf selectedClass
    let totals := cls.rows.map (fun r => totalMarks cls.cols r)
    Except.ok ⟨totals, cls.rows.map (fun r => percentage cls.cols r),
      passRate cls, top3Ranked totals⟩
  else Except.error (missingMsg missing)

/-- The rows of one class group of the cross-class comparison (groupby on
the raw Class cells of the unfiltered table). -/
def classGroup (df : DataFrame) (cl : Cell) : List (List Cell) :=
  df.rows.filter (fun r => decide (lookup df.cols r "Class" = cl))

/-- Cross-class pass rate of one class: the mean of the PassAll indicator
column of the group, times 100. -/
def classPassRate (df : DataFrame) (cl : Cell) : ℚ :=
  ((classGroup df cl).countP (fun r => passAll df.cols r) : ℚ)
    / (classGroup df cl).length * 100

/-! Witness data: small concrete tables and rows used to instantiate the
hypotheses of the general theorems below. -/

/-- Witness row for the normalization theorem: identity columns plus one
alias subject column holding an empty mark. -/
def rowW4 : List Cell := [Cell.str "10A", Cell.str "R1", Cell.str "Asha", Cell.na]

/-- Witness table for the normalization theorem. -/
def dfW4 : DataFrame := ⟨["Class", "Reg.no", "Name", "OOPS C++"], [rowW4]⟩

/-- Witness table for the pass-rate theorem: one student passing all six
subjects. -/
def dfW3 : DataFrame :=
  ⟨SUBJECTS, [[Cell.num 50, Cell.num 60, Cell.num 70, Cell.num 80,
    Cell.num 90, Cell.num 40]]⟩

/-- Witness row for the totals theorem, in canonical column order. -/
def rowW1 : List Cell :=
  [Cell.num 10, Cell.num 20, Cell.num 30, Cell.num 40, Cell.num 50, Cell.num 60]

/-- First witness table for the cross-class pass-rate theorem. -/
def dfW9a : DataFrame :=
  ⟨["Class", "Mathematics"],
   [[Cell.str "A", Cell.num 50], [Cell.str "B", Cell.num 10]]⟩

/-- Second witness table for the cross-class pass-rate theorem: the same
rows in the opposite order. -/
def dfW9b : DataFrame :=
  ⟨["Class", "Mathematics"],
   [[Cell.str "B", Cell.num 10], [Cell.str "A", Cell.num 50]]⟩

/-! Helper lemmas about the embedded operations. -/

/-- The letter-grade loop as a chain of threshold tests. -/
theorem to_grade_eq (s : ℚ) :
    to_grade s =
      if 90 ≤ s then "A+" else if 80 ≤ s then "A" else if 70 ≤ s then "B"
      else if 60 ≤ s then "C" else if 50 ≤ s then "D" else "E" := by
  by_cases h90 : (90 : ℚ) ≤ s
  · simp [to_grade, GRADE_BOUNDS, List.find?, h90]
  · by_cases h80 : (80 : ℚ) ≤ s
    · simp [to_grade, GRADE_BOUNDS, List.find?, h90, h80]
    · by_cases h70 : (70 : ℚ) ≤ s
      · simp [to_grade, GRADE_BOUNDS, List.find?, h90, h80, h70]
      · by_cases h60 : (60 : ℚ) ≤ s
        · simp [to_grade, GRADE_BOUNDS, List.find?, h90, h80, h70, h60]
        · by_cases h50 : (50 : ℚ) ≤ s
          · simp [to_grade, GRADE_BOUNDS, List.find?, h90, h80, h70, h60, h50]
          · by_cases h0 : (0 : ℚ) ≤ s
            · simp [to_grade, GRADE_BOUNDS, List.find?, h90, h80, h70, h60, h50, h0]
            · simp [to_grade, GRADE_BOUNDS, List.find?, h90, h80, h70, h60, h50, h0]

/-- The ascending argsort key is total. -/
theorem ascKey_total (xs : List ℚ) : ∀ i j, ascKey xs i j ∨ ascKey xs j i := by
  intro i j
  rcases lt_trichotomy (xs.getD i 0) (xs.getD j 0) with h | h | h
  · exact Or.inl (Or.inl h)
  · rcases Nat.le_total i j with hij | hij
    · exact Or.inl (Or.inr ⟨h, hij⟩)
    · exact Or.inr (Or.inr ⟨h.symm, hij⟩)
  · exact Or.inr (Or.inl h)

/-- The ascending argsort key is transitive. -/
theorem ascKey_trans (xs : List ℚ) :
    ∀ i j k, ascKey xs i j → ascKey xs j k → ascKey xs i k := by
  intro i j k hij hjk
  rcases hij with h₁ | ⟨e₁, l₁⟩
  · rcases hjk with h₂ | ⟨e₂, l₂⟩
    · exact Or.inl (h₁.trans h₂)
    · exact Or.inl (e₂ ▸ h₁)
  · rcases hjk with h₂ | ⟨e₂, l₂⟩
    · exact Or.inl (e₁ ▸ h₂)
    · exact Or.inr ⟨e₁.trans e₂, l₁.trans l₂⟩

/-- The descending sort permutes the row positions. -/
theorem sortDescIdx_perm (xs : List ℚ) :
    List.Perm (sortDescIdx xs) (List.range xs.length) :=
  (List.reverse_perm _).trans (List.perm_insertionSort _ _)

/-- The ascending argsort is sorted for its key. -/
theorem argsortAsc_sorted (xs : List ℚ) : List.Sorted (ascKey xs) (argsortAsc xs) := by
  haveI : IsTotal Nat (ascKey xs) := ⟨ascKey_total xs⟩
  haveI : IsTrans Nat (ascKey xs) := ⟨ascKey_trans xs⟩
  exact List.sorted_insertionSort _ _

/-- Along the descending sort, totals strictly decrease or stay equal with
strictly decreasing original positions. -/
theorem sortDescIdx_pairwise (xs : List ℚ) :
    (sortDescIdx xs).Pairwise
      (fun i j => xs.getD j 0 < xs.getD i 0 ∨ (xs.getD i 0 = xs.getD j 0 ∧ j < i)) := by
  have hrev : (sortDescIdx xs).Pairwise (fun i j => ascKey xs j i) :=
    List.pairwise_reverse.mpr (argsortAsc_sorted xs)
  have hnd : (sortDescIdx xs).Nodup :=
    ((sortDescIdx_perm xs).nodup_iff).mpr (List.nodup_range _)
  have hboth := hrev.and hnd
  refine hboth.imp ?_
  rintro i j ⟨hk, hne⟩
  rcases hk with hlt | ⟨heq, hle⟩
  · exact Or.inl hlt
  · exact Or.inr ⟨heq.symm, lt_of_le_of_ne hle (Ne.symm hne)⟩

/-- Mapping the first projection over a zip takes a prefix of the first
list. -/
theorem zip_map_fst {α β : Type} :
    ∀ (l₁ : List α) (l₂ : List β), (l₁.zip l₂).map Prod.fst = l₁.take l₂.length
  | [], _ => by simp
  | _ :: _, [] => by simp
  | a :: l₁, b :: l₂ => by simp [zip_map_fst l₁ l₂]

/-- The descending sort keeps the row count. -/
theorem sortDescIdx_length (xs : List ℚ) : (sortDescIdx xs).length = xs.length := by
  simpa using (sortDescIdx_perm xs).length_eq

/-- Head-3 of the descending sort has length min 3 n. -/
theorem top3Idx_length (xs : List ℚ) : (top3Idx xs).length = min 3 xs.length := by
  simp [top3Idx, sortDescIdx_length]

/-- Closed form of the backfill loop from any starting table: the absent
subjects are appended in subject order and every row is padded with that
many zero marks. -/
theorem foldl_addCol (subs : List String) :
    ∀ (cols : List String) (rows : List (List Cell)), subs.Nodup →
      List.foldl addCol ⟨cols, rows⟩ subs =
        ⟨cols ++ subs.filter (fun s => !(cols.contains s)),
         rows.map (fun r =>
           r ++ List.replicate (subs.filter (fun s => !(cols.contains s))).length
             (Cell.num 0))⟩ := by
  induction subs with
  | nil => intro cols rows _; simp
  | cons s rest ih =>
    intro cols rows h
    have hnd : rest.Nodup := (List.nodup_cons.mp h).2
    have hsr : s ∉ rest := (List.nodup_cons.mp h).1
    rw [List.foldl_cons]
    by_cases hs : s ∈ cols
    · have hstep : addCol ⟨cols, rows⟩ s = ⟨cols, rows⟩ := by simp [addCol, hs]
      rw [hstep, ih cols rows hnd]
      have hfil : (s :: rest).filter (fun x => !(cols.contains x))
          = rest.filter (fun x => !(cols.contains x)) := by
        simp [List.filter_cons, hs]
      rw [hfil]
    · have hstep : addCol ⟨cols, rows⟩ s
          = ⟨cols ++ [s], rows.map (fun r => r ++ [Cell.num 0])⟩ := by
        simp [addCol, hs]
      rw [hstep, ih (cols ++ [s]) _ hnd]
      have hfil2 : rest.filter (fun x => !((cols ++ [s]).contains x))
          = rest.filter (fun x => !(cols.contains x)) := by
        apply List.filter_congr
        intro x hx
        have hxs : x ≠ s := fun e => hsr (e ▸ hx)
        simp [hxs]
      have hfil3 : (s :: rest).filter (fun x => !(cols.contains x))
          = s :: rest.filter (fun x => !(cols.contains x)) := by
        simp [List.filter_cons, hs]
      rw [hfil2, hfil3]
      simp [List.map_map, List.append_assoc, Function.comp, List.replicate_succ]

/-- Closed form of the backfill step. -/
theorem addMissing_eq (d : DataFrame) :
    addMissing d = ⟨d.cols ++ missingSubs d.cols,
      d.rows.map (fun r =>
        r ++ List.replicate (missingSubs d.cols).length (Cell.num 0))⟩ := by
  have h := foldl_addCol SUBJECTS d.cols d.rows (by decide)
  simpa [addMissing, missingSubs] using h

/-- Closed form of the whole normalization. -/
theorem normalize_eq (df : DataFrame) :
    normalize df = ⟨normCols df.cols, df.rows.map (normRow df.cols)⟩ := by
  unfold normalize renameCols
  rw [addMissing_eq]
  unfold fillnaSubjects normCols normRow
  simp [List.map_map, Function.comp, normCols]

/-- Looking up an absent column yields the missing cell. -/
theorem lookup_not_mem :
    ∀ (cols : List String) (r : List Cell) (c : String),
      c ∉ cols → lookup cols r c = Cell.na
  | [], _, _, _ => rfl
  | _ :: _, [], _, _ => rfl
  | c₀ :: cs, x :: xs, c, h => by
    have hne : c₀ ≠ c := fun e => h (e ▸ List.mem_cons_self c₀ cs)
    simp [lookup, hne, lookup_not_mem cs xs c (fun hc => h (List.mem_cons_of_mem _ hc))]

/-- Lookup in an extended table stays in the left part for its columns. -/
theorem lookup_append_left :
    ∀ (cols₁ : List String) (r₁ : List Cell) (cols₂ : List String) (r₂ : List Cell)
      (c : String), r₁.length = cols₁.length → c ∈ cols₁ →
      lookup (cols₁ ++ cols₂) (r₁ ++ r₂) c = lookup cols₁ r₁ c := by
  intro cols₁
  induction cols₁ with
  | nil => intro r₁ cols₂ r₂ c _ hc; exact absurd hc (List.not_mem_nil c)
  | cons c₀ cs ih =>
    intro r₁ cols₂ r₂ c hlen hc
    cases r₁ with
    | nil => simp at hlen
    | cons x xs =>
      by_cases he : c₀ = c
      · simp [lookup, he]
      · have hc2 : c ∈ cs := by
          rcases List.mem_cons.mp hc with h | h
          · exact absurd h.symm he
          · exact h
        simp only [List.cons_append, lookup, if_neg he]
        exact ih xs cols₂ r₂ c (by simpa using hlen) hc2

/-- Lookup in an extended table moves to the right part for new columns. -/
theorem lookup_append_right :
    ∀ (cols₁ : List String) (r₁ : List Cell) (cols₂ : List String) (r₂ : List Cell)
      (c : String), r₁.length = cols₁.length → c ∉ cols₁ →
      lookup (cols₁ ++ cols₂) (r₁ ++ r₂) c = lookup cols₂ r₂ c := by
  intro cols₁
  induction cols₁ with
  | nil =>
    intro r₁ cols₂ r₂ c hlen _
    have : r₁ = [] := List.length_eq_zero.mp hlen
    simp [this]
  | cons c₀ cs ih =>
    intro r₁ cols₂ r₂ c hlen hc
    cases r₁ with
    | nil => simp at hlen
    | cons x xs =>
      have hne : c₀ ≠ c := fun e => hc (e ▸ List.mem_cons_self c₀ cs)
      simp only [List.cons_append, lookup, if_neg hne]
      exact ih xs cols₂ r₂ c (by simpa using hlen)
        (fun h => hc (List.mem_cons_of_mem _ h))

/-- Lookup in a constant row yields the constant. -/
theorem lookup_replicate :
    ∀ (cols : List String) (c : String) (v : Cell), c ∈ cols →
      lookup cols (List.replicate cols.length v) c = v := by
  intro cols
  induction cols with
  | nil => intro c v hc; exact absurd hc (List.not_mem_nil c)
  | cons c₀ cs ih =>
    intro c v hc
    by_cases he : c₀ = c
    · simp [List.replicate_succ, lookup, he]
    · have hc2 : c ∈ cs := by
        rcases List.mem_cons.mp hc with h | h
        · exact absurd h.symm he
        · exact h
      simp only [List.length_cons, List.replicate_succ, lookup, if_neg he]
      exact ih c v hc2

/-- Lookup after the zero-fill is the zero-fill of the lookup. -/
theorem lookup_fillRow :
    ∀ (cols : List String) (r : List Cell) (c : String),
      c ∈ cols → cols.length ≤ r.length →
      lookup cols (fillRow cols r) c = fillCell c (lookup cols r c) := by
  intro cols
  induction cols with
  | nil => intro r c hc _; exact absurd hc (List.not_mem_nil c)
  | cons c₀ cs ih =>
    intro r c hc hlen
    cases r with
    | nil => simp at hlen
    | cons x xs =>
      by_cases he : c₀ = c
      · simp [fillRow, List.zipWith, lookup, he]
      · have hc2 : c ∈ cs := by
          rcases List.mem_cons.mp hc with h | h
          · exact absurd h.symm he
          · exact h
        simp only [fillRow, List.zipWith, lookup, if_neg he]
        exact ih xs c hc2 (by simpa using hlen)

/-- No alias key equals a rename target. -/
theorem rename_vals_not_keys : ∀ p ∈ RENAME_MAP, ∀ q ∈ RENAME_MAP, q.1 ≠ p.2 := by decide

/-- No alias key equals a canonical subject name. -/
theorem subjects_not_keys : ∀ s ∈ SUBJECTS, ∀ q ∈ RENAME_MAP, q.1 ≠ s := by decide

/-- Labels that are not alias keys are fixed by the rename. -/
theorem applyRename_eq_self (c : String) (h : ∀ q ∈ RENAME_MAP, q.1 ≠ c) :
    applyRename c = c := by
  unfold applyRename
  have hnone : RENAME_MAP.find? (fun p => p.1 == c) = none := by
    apply List.find?_eq_none.mpr
    intro q hq
    simpa using h q hq
  rw [hnone]

/-- The rename is idempotent on labels. -/
theorem applyRename_idem (c : String) :
    applyRename (applyRename c) = applyRename c := by
  apply applyRename_eq_self
  intro q hq
  unfold applyRename
  cases hfind : RENAME_MAP.find? (fun p => p.1 == c) with
  | none => simpa using List.find?_eq_none.mp hfind q hq
  | some p => exact rename_vals_not_keys p (List.mem_of_find?_eq_some hfind) q hq

/-- Canonical subject names are fixed by the rename. -/
theorem applyRename_subject (s : String) (hs : s ∈ SUBJECTS) : applyRename s = s :=
  applyRename_eq_self s (subjects_not_keys s hs)

/-- Every subject is a column of the normalized table. -/
theorem subjects_mem_normCols (cols : List String) (s : String) (hs : s ∈ SUBJECTS) :
    s ∈ normCols cols := by
  by_cases h : s ∈ cols.map applyRename
  · exact List.mem_append_left _ h
  · refine List.mem_append_right _ ?_
    have h2 : ∀ x ∈ cols, ¬applyRename x = s := by
      intro x hx he
      exact h (List.mem_map.mpr ⟨x, hx, he⟩)
    simp [missingSubs, List.mem_filter, hs]
    exact h2

/-- Every normalized column label is fixed by the rename. -/
theorem normCols_fixed (cols : List String) : ∀ c ∈ normCols cols, applyRename c = c := by
  intro c hc
  rcases List.mem_append.mp hc with h | h
  · rcases List.mem_map.mp h with ⟨c₀, _, rfl⟩
    exact applyRename_idem c₀
  · have hs : c ∈ SUBJECTS := (List.mem_filter.mp h).1
    exact applyRename_subject c hs

/-- Renaming normalized column labels changes nothing. -/
theorem normCols_map (cols : List String) :
    (normCols cols).map applyRename = normCols cols := by
  have h : ∀ c ∈ normCols cols, applyRename c = id c := normCols_fixed cols
  rw [List.map_congr_left h, List.map_id]

/-- A normalized table misses no subject. -/
theorem missingSubs_normCols (cols : List String) : missingSubs (normCols cols) = [] := by
  unfold missingSubs
  rw [List.filter_eq_nil_iff]
  intro s hs
  simp [subjects_mem_normCols cols s hs]

/-- Lookup of a subject on a normalized row: the zero-fill of the renamed
source lookup when the subject column came from the source, the backfilled
zero otherwise. -/
theorem normalize_lookup (cols : List String) (r : List Cell) (s : String)
    (hs : s ∈ SUBJECTS) (hlen : r.length = cols.length) :
    lookup (normCols cols) (normRow cols r) s =
      fillCell s (if s ∈ cols.map applyRename
                  then lookup (cols.map applyRename) r s
                  else Cell.num 0) := by
  have hrlen : r.length = (cols.map applyRename).length := by simpa using hlen
  have hplen : (r ++ List.replicate (missingSubs (cols.map applyRename)).length
      (Cell.num 0)).length = (normCols cols).length := by
    simp [normCols, hrlen]
  rw [normRow, lookup_fillRow _ _ _ (subjects_mem_normCols cols s hs) (le_of_eq hplen.symm)]
  by_cases hmem : s ∈ cols.map applyRename
  · rw [if_pos hmem, normCols,
      lookup_append_left _ _ _ _ _ hrlen hmem]
  · have hm2 : ∀ x ∈ cols, ¬applyRename x = s := by
      intro x hx he
      exact hmem (List.mem_map.mpr ⟨x, hx, he⟩)
    have hm : s ∈ missingSubs (cols.map applyRename) := by
      simp [missingSubs, List.mem_filter, hs]
      exact hm2
    rw [if_neg hmem, normCols,
      lookup_append_right _ _ _ _ _ hrlen hmem,
      lookup_replicate _ _ _ hm]

/-- The zero-fill is idempotent on one cell. -/
theorem fillCell_fillCell (c : String) (x : Cell) :
    fillCell c (fillCell c x) = fillCell c x := by
  unfold fillCell
  split_ifs with h1 h2 <;> simp_all

/-- The zero-fill is idempotent on one row. -/
theorem fillRow_fillRow :
    ∀ (cols : List String) (r : List Cell),
      fillRow cols (fillRow cols r) = fillRow cols r
  | [], _ => rfl
  | _ :: _, [] => rfl
  | c :: cs, x :: xs => by
    simp only [fillRow, List.zipWith]
    exact congrArg₂ _ (fillCell_fillCell c x) (fillRow_fillRow cs xs)

/-- Normalized column labels are a fixed point of the column computation. -/
theorem normCols_normCols (cols : List String) :
    normCols (normCols cols) = normCols cols := by
  show (normCols cols).map applyRename
      ++ missingSubs ((normCols cols).map applyRename) = normCols cols
  rw [normCols_map, missingSubs_normCols, List.append_nil]

/-- Normalized rows are a fixed point of the row computation. -/
theorem normRow_normRow (cols : List String) (r : List Cell) :
    normRow (normCols cols) (normRow cols r) = normRow cols r := by
  show fillRow (normCols (normCols cols))
      (normRow cols r
        ++ List.replicate (missingSubs ((normCols cols).map applyRename)).length
          (Cell.num 0)) = normRow cols r
  rw [normCols_map, missingSubs_normCols, normCols_normCols]
  simp only [List.length_nil, List.replicate_zero, List.append_nil]
  show fillRow (normCols cols) (fillRow (normCols cols) _) = _
  rw [fillRow_fillRow]
  rfl

/-- A zero-fill keeps subject na cells away. -/
theorem fillCell_na (s : String) (hs : s ∈ SUBJECTS) :
    fillCell s Cell.na = Cell.num 0 := by
  simp [fillCell, hs]

/-- The zero-fill does not touch a non-missing cell. -/
theorem fillCell_not_na (s : String) (x : Cell) (hx : x ≠ Cell.na) :
    fillCell s x = x := by
  simp [fillCell, hx]

/-- A cast count of matching elements is the sum of an indicator column. -/
theorem countP_cast_eq_sum_indicator {α : Type} (p : α → Bool) (l : List α) :
    ((l.countP p : ℚ)) = (l.map (fun x => if p x then (1:ℚ) else 0)).sum := by
  induction l with
  | nil => simp
  | cons a l ih =>
    by_cases hp : p a
    · simp [List.countP_cons, hp, ih]
      ring
    · simp [List.countP_cons, hp, ih]

/-! Claim theorems. -/

/-- C1: for every normalized student row, the derived total equals the sum
of the marks of exactly the six canonical subjects, independent of input
column order, and the derived percentage equals the two-decimal rounding of
total divided by 600 times 100.  Column-order independence is expressed by
the hypothesis that a second table exposes the same cells under the six
subject names. -/
theorem C1_total_is_subject_sum_and_percentage
    (cols cols₂ : List String) (r r₂ : List Cell)
    (horder : ∀ s ∈ SUBJECTS, lookup cols₂ r₂ s = lookup cols r s) :
    totalMarks cols r =
        cellNum (lookup cols r "OOPs C++") + cellNum (lookup cols r "DSA C++")
      + cellNum (lookup cols r "Mathematics")
      + cellNum (lookup cols r "Applied Data Science")
      + cellNum (lookup cols r "Embedded Systems")
      + cellNum (lookup cols r "Cloud Management")
    ∧ totalMarks cols₂ r₂ = totalMarks cols r
    ∧ percentage cols r = round2 (totalMarks cols r / 600 * 100) := by
  refine ⟨?_, ?_, ?_⟩
  · simp [totalMarks, SUBJECTS]
    ring
  · unfold totalMarks
    congr 1
    apply List.map_congr_left
    intro s hs
    rw [horder s hs]
  · simp [percentage, SUBJECTS]
    norm_num

/-- Witness for C1 at a concrete row given in reversed column order. -/
theorem C1_witness :
    totalMarks SUBJECTS.reverse rowW1.reverse = totalMarks SUBJECTS rowW1 :=
  (C1_total_is_subject_sum_and_percentage SUBJECTS SUBJECTS.reverse
    rowW1 rowW1.reverse (by decide)).2.1

/-- C2 counterexample: on the totals 95, 95, 80, 60 the pandas descending
sort puts the second 95 first, so the tie is broken by reversed original row
order and the label 1st goes to row position 1, not row position 0 as the
claim states. -/
theorem C2_counterexample :
    top3Ranked [95, 95, 80, 60] = [("1st", 1), ("2nd", 0), ("3rd", 2)]
    ∧ top3Idx [95, 95, 80, 60] ≠ [0, 1, 2] := by decide

/-- C2 (amended): the top-N ranking sorts records by total marks descending
with ties broken by REVERSED original row order (the descending sort is the
reverse of a stable ascending argsort), assigns the ordinal labels in that
order, and has output length exactly min 3 of the record count. -/
theorem C2_amended_top3 (xs : List ℚ) :
    (top3Ranked xs).length = min 3 xs.length
    ∧ (top3Ranked xs).map Prod.fst = ["1st", "2nd", "3rd"].take (min 3 xs.length)
    ∧ top3Idx xs = (sortDescIdx xs).take 3
    ∧ List.Perm (sortDescIdx xs) (List.range xs.length)
    ∧ (sortDescIdx xs).Pairwise
        (fun i j => xs.getD j 0 < xs.getD i 0 ∨ (xs.getD i 0 = xs.getD j 0 ∧ j < i)) := by
  refine ⟨?_, ?_, rfl, sortDescIdx_perm xs, sortDescIdx_pairwise xs⟩
  · simp [top3Ranked, top3Idx_length]
  · rw [top3Ranked, zip_map_fst, top3Idx_length]

/-- C3: the pass rate equals the percentage of records whose marks in all
six canonical subjects are at least 40, and an empty filtered table yields
exactly 0. -/
theorem C3_pass_rate (df : DataFrame) :
    (df.rows.length = 0 → passRate df = 0)
    ∧ (0 < df.rows.length →
        passRate df
          = 100 * ((df.rows.countP (fun r => passAll df.cols r) : ℚ)) / df.rows.length)
    ∧ (∀ r, passAll df.cols r = true ↔
        ∀ s ∈ SUBJECTS, ∃ q : ℚ, lookup df.cols r s = Cell.num q ∧ 40 ≤ q)
    ∧ ((∀ r ∈ df.rows, passAll df.cols r = true) → 0 < df.rows.length → passRate df = 100)
    ∧ ((∀ r ∈ df.rows, passAll df.cols r = false) → passRate df = 0) := by
  refine ⟨?_, ?_, ?_, ?_, ?_⟩
  · intro h
    simp [passRate, h]
  · intro h
    have hne : df.rows.length ≠ 0 := Nat.pos_iff_ne_zero.mp h
    simp [passRate, hne]
  · intro r
    simp only [passAll, List.all_eq_true]
    constructor
    · intro h s hsm
      have hx := h s hsm
      cases hval : lookup df.cols r s <;> rw [hval] at hx <;> simp_all
    · intro h s hsm
      obtain ⟨q, hq, hge⟩ := h s hsm
      rw [hq]
      simpa using hge
  · intro hall hpos
    have hne : df.rows.length ≠ 0 := Nat.pos_iff_ne_zero.mp hpos
    have hcnt : df.rows.countP (fun r => passAll df.cols r) = df.rows.length :=
      List.countP_eq_length.mpr (by intro a ha; simpa using hall a ha)
    have hq : (df.rows.length : ℚ) ≠ 0 := by exact_mod_cast hne
    rw [passRate, if_neg hne, hcnt, mul_div_assoc, div_self hq, mul_one]
  · intro hall
    by_cases h0 : df.rows.length = 0
    · simp [passRate, h0]
    · have hcnt : df.rows.countP (fun r => passAll df.cols r) = 0 :=
        List.countP_eq_zero.mpr (by intro a ha; simp [hall a ha])
      simp [passRate, h0, hcnt]

/-- Witness for C3: a one-row table passing every subject has pass rate
exactly 100. -/
theorem C3_witness : passRate dfW3 = 100 :=
  (C3_pass_rate dfW3).2.2.2.1 (by decide) (by decide)

/-- C4 counterexample: a text cell in a subject column survives
normalization unchanged, so the normalized row does not hold a numeric
value for that subject, refuting the claim as stated for arbitrary raw
tables. -/
theorem C4_counterexample :
    lookup (normalize ⟨["Mathematics"], [[Cell.str "absent"]]⟩).cols
        ((normalize ⟨["Mathematics"], [[Cell.str "absent"]]⟩).rows.getD 0 [])
        "Mathematics"
      = Cell.str "absent"
    ∧ isNum (lookup (normalize ⟨["Mathematics"], [[Cell.str "absent"]]⟩).cols
        ((normalize ⟨["Mathematics"], [[Cell.str "absent"]]⟩).rows.getD 0 [])
        "Mathematics")
      = false := ⟨rfl, rfl⟩

/-- C4 (amended): for every input table whose subject cells, read under the
renamed labels, are numeric or missing, every normalized row has all six
canonical subject keys with numeric values, and a subject column absent
from the renamed source or holding a missing cell holds exactly the numeric
0. -/
theorem C4_amended_normalization (df : DataFrame)
    (hw : ∀ r ∈ df.rows, r.length = df.cols.length)
    (hnum : ∀ r ∈ df.rows, ∀ s ∈ SUBJECTS,
      lookup (df.cols.map applyRename) r s = Cell.na
        ∨ isNum (lookup (df.cols.map applyRename) r s) = true) :
    (normalize df).rows = df.rows.map (normRow df.cols)
    ∧ ∀ r ∈ df.rows, ∀ s ∈ SUBJECTS,
        s ∈ (normalize df).cols
        ∧ isNum (lookup (normalize df).cols (normRow df.cols r) s) = true
        ∧ (s ∉ df.cols.map applyRename →
            lookup (normalize df).cols (normRow df.cols r) s = Cell.num 0)
        ∧ (lookup (df.cols.map applyRename) r s = Cell.na →
            lookup (normalize df).cols (normRow df.cols r) s = Cell.num 0) := by
  have hcols : (normalize df).cols = normCols df.cols := by rw [normalize_eq]
  constructor
  · rw [normalize_eq]
  intro r hr s hs
  have hlk := normalize_lookup df.cols r s hs (hw r hr)
  rw [hcols, hlk]
  by_cases hmem : s ∈ df.cols.map applyRename
  · rw [if_pos hmem]
    rcases hnum r hr s hs with hna | hn
    · rw [hna, fillCell_na s hs]
      refine ⟨subjects_mem_normCols df.cols s hs, rfl, ?_, fun _ => rfl⟩
      intro hc
      exact absurd hmem hc
    · obtain ⟨q, hq⟩ : ∃ q, lookup (df.cols.map applyRename) r s = Cell.num q := by
        cases hx : lookup (df.cols.map applyRename) r s <;> simp_all [isNum]
      rw [hq, fillCell_not_na s _ (by simp)]
      refine ⟨subjects_mem_normCols df.cols s hs, rfl, ?_, ?_⟩
      · intro hc
        exact absurd hmem hc
      · intro hna
        exact absurd hna (by simp)
  · rw [if_neg hmem, fillCell_not_na s _ (by simp)]
    refine ⟨subjects_mem_normCols df.cols s hs, rfl, fun _ => rfl, fun _ => rfl⟩

/-- Witness for C4 (amended): the aliased empty subject cell of the witness
table is backfilled to the numeric 0 under its canonical name. -/
theorem C4_witness :
    isNum (lookup (normalize dfW4).cols (normRow dfW4.cols rowW4) "OOPs C++") = true
    ∧ lookup (normalize dfW4).cols (normRow dfW4.cols rowW4) "OOPs C++" = Cell.num 0 := by
  have h := (C4_amended_normalization dfW4 (by decide) (by decide)).2 rowW4
    (by decide) "OOPs C++" (by decide)
  exact ⟨h.2.1, h.2.2.2 (by decide)⟩

/-- C5: the letter grade is determined by the fixed descending inclusive
thresholds 90 to A+, 80 to A, 70 to B, 60 to C, 50 to D, otherwise E; in
particular a score of exactly 90 yields A+ and 89.99 yields A. -/
theorem C5_grade_thresholds :
    (∀ s : ℚ, to_grade s =
      if 90 ≤ s then "A+" else if 80 ≤ s then "A" else if 70 ≤ s then "B"
      else if 60 ≤ s then "C" else if 50 ≤ s then "D" else "E")
    ∧ to_grade 90 = "A+"
    ∧ to_grade (8999/100) = "A" := by
  refine ⟨to_grade_eq, ?_, ?_⟩
  · rw [to_grade_eq]
    norm_num
  · rw [to_grade_eq]
    norm_num

/-- C6: the predicted score is the clamp into the interval 0 to 100 of the
fixed linear formula, hence always lies in that interval; at age 17 with no
absences, no study time, moderate support, high-school education and no
sports the prediction is 50.5, graded D. -/
theorem C6_predictor_formula_and_range :
    (∀ i : PredictorInput,
      predictor_score i
          = clamp (50 + i.study_time * (22/10) - i.absences * (15/10)
              + supportBonus i.parental_support + eduBonus i.parental_ed
              + (if i.sports then 5/2 else 0)
              + (-(15/100) * (i.age - 17) ^ 2 + 1/2))
        ∧ 0 ≤ predictor_score i ∧ predictor_score i ≤ 100)
    ∧ predictor_score ⟨17, Gender.female, 0, 0, ParentalEd.highSchool,
        ParentalSupport.moderate, Ethnicity.groupA, false⟩ = 101/2
    ∧ to_grade (predictor_score ⟨17, Gender.female, 0, 0, ParentalEd.highSchool,
        ParentalSupport.moderate, Ethnicity.groupA, false⟩) = "D" := by
  have hval : predictor_score ⟨17, Gender.female, 0, 0, ParentalEd.highSchool,
      ParentalSupport.moderate, Ethnicity.groupA, false⟩ = 101/2 := by
    norm_num [predictor_score, clamp, supportBonus, eduBonus]
  refine ⟨?_, hval, ?_⟩
  · intro i
    exact ⟨rfl, le_max_left 0 _, max_le (by norm_num) (min_le_left _ _)⟩
  · rw [hval, to_grade_eq]
    norm_num

/-- C7: neither predictor reads gender or ethnicity, so two inputs agreeing
on all other fields receive identical predicted percentages and hence
identical grades. -/
theorem C7_gender_ethnicity_parity :
    (∀ (age absences study_time : ℚ) (g₁ g₂ : Gender) (e₁ e₂ : Ethnicity)
        (pe : ParentalEd) (ps : ParentalSupport) (sp : Bool),
      predictor_score ⟨age, g₁, absences, study_time, pe, ps, e₁, sp⟩
        = predictor_score ⟨age, g₂, absences, study_time, pe, ps, e₂, sp⟩
      ∧ to_grade (predictor_score ⟨age, g₁, absences, study_time, pe, ps, e₁, sp⟩)
        = to_grade (predictor_score ⟨age, g₂, absences, study_time, pe, ps, e₂, sp⟩))
    ∧ ∀ (age absences study_time : ℚ) (g₁ g₂ e₁ e₂ pe ps : String) (sp : Bool),
      predict_percentage age g₁ absences study_time pe ps e₁ sp
        = predict_percentage age g₂ absences study_time pe ps e₂ sp :=
  ⟨fun _ _ _ _ _ _ _ _ _ _ => ⟨rfl, rfl⟩, fun _ _ _ _ _ _ _ _ _ _ => rfl⟩

/-- C8: when a required identity column is absent from the normalized
table, the pipeline reports the error message naming exactly the missing
columns and produces no aggregation result. -/
theorem C8_missing_columns_error (df : DataFrame) (cl : Cell)
    (h : missingCore (normalize df) ≠ []) :
    analyze df cl = Except.error (missingMsg (missingCore (normalize df)))
    ∧ (∀ c, c ∈ missingCore (normalize df) ↔ c ∈ CORE_COLS ∧ c ∉ (normalize df).cols)
    ∧ ∀ a : Analysis, analyze df cl ≠ Except.ok a := by
  have h1 : analyze df cl = Except.error (missingMsg (missingCore (normalize df))) := by
    unfold analyze
    rw [if_neg h]
  refine ⟨h1, ?_, ?_⟩
  · intro c
    simp [missingCore, List.mem_filter]
  · intro a hcontra
    rw [h1] at hcontra
    exact Except.noConfusion hcontra

/-- Witness for C8: a table with no columns at all stops with the error
naming the three identity columns. -/
theorem C8_witness :
    analyze ⟨[], []⟩ (Cell.str "X")
      = Except.error "Missing required columns: Class, Reg.no, Name" := by
  have h := (C8_missing_columns_error ⟨[], []⟩ (Cell.str "X") (by decide)).1
  rw [h]
  rfl

/-- C9: the cross-class pass rate of each class is 100 times the arithmetic
mean of the per-record pass-all indicator over that class, and is invariant
under any reordering of the table rows. -/
theorem C9_class_pass_rate (df₁ df₂ : DataFrame) (cl : Cell)
    (hcols : df₁.cols = df₂.cols) (hperm : List.Perm df₁.rows df₂.rows) :
    classPassRate df₁ cl = classPassRate df₂ cl
    ∧ classPassRate df₁ cl =
        ((classGroup df₁ cl).map (fun r => if passAll df₁.cols r then (1:ℚ) else 0)).sum
          / (classGroup df₁ cl).length * 100 := by
  constructor
  · unfold classPassRate classGroup
    rw [← hcols]
    have hg : List.Perm
        (df₁.rows.filter (fun r => decide (lookup df₁.cols r "Class" = cl)))
        (df₂.rows.filter (fun r => decide (lookup df₁.cols r "Class" = cl))) :=
      hperm.filter _
    rw [List.Perm.countP_eq _ hg, List.Perm.length_eq hg]
  · unfold classPassRate
    rw [countP_cast_eq_sum_indicator]

/-- Witness for C9: swapping the two rows of the witness table leaves the
pass rate of class A unchanged. -/
theorem C9_witness : classPassRate dfW9a (Cell.str "A") = classPassRate dfW9b (Cell.str "A") :=
  (C9_class_pass_rate dfW9a dfW9b (Cell.str "A") rfl
    (List.Perm.swap _ _ _)).1

/-- C10: normalization is idempotent: normalizing twice equals normalizing
once for every input table, because no canonical subject name occurs as an
alias key and all six canonical columns are present after one pass. -/
theorem C10_normalize_idempotent (df : DataFrame) :
    normalize (normalize df) = normalize df
    ∧ (∀ s ∈ SUBJECTS, applyRename s = s)
    ∧ (∀ s ∈ SUBJECTS, s ∈ (normalize df).cols) := by
  refine ⟨?_, applyRename_subject, ?_⟩
  · rw [normalize_eq df,
      normalize_eq ⟨normCols df.cols, df.rows.map (normRow df.cols)⟩]
    simp only [List.map_map, Function.comp]
    congr 1
    · exact normCols_normCols df.cols
    · apply List.map_congr_left
      intro r _
      exact normRow_normRow df.cols r
  · intro s hs
    rw [normalize_eq]
    exact subjects_mem_normCols df.cols s hs

end Dashboard
